import Mathlib

/-!
Verification of the SDAM (Server Discovery and Monitoring) core described by
the repository's design document.  The repository fragment under `src/` is the
public header `CLibMongoC_mongoc-server-description.h`, which only declares the
accessors of `mongoc_server_description_t`; the reconciliation algorithm, the
monitor loop and the server selector are specified in the design document and
are modelled here from its text.
-/

namespace SDAM

/-- A host/port pair, the unique key of a server within a topology. -/
abbrev Address := Nat

/-- Modelled from the spec: the `serverType` enumeration of a
ServerDescription (§3). -/
inductive ServerType where
  | Unknown
  | Standalone
  | Mongos
  | PossiblePrimary
  | RSPrimary
  | RSSecondary
  | RSArbiter
  | RSOther
  | RSGhost
  | LoadBalancer
deriving DecidableEq, Repr

/-- Modelled from the spec: the immutable ServerDescription value (§3), with
the fields the reconciliation algorithm, the monitor and the selector consult.
`roundTripTimeMillis` is `none` until at least one successful probe. -/
structure ServerDescription where
  address : Address
  serverType : ServerType
  roundTripTimeMillis : Option ℚ
  setName : Option String
  setVersion : Option Nat
  electionId : Option Nat
  hosts : List Address
  passives : List Address
  arbiters : List Address
  tags : List (String × String)
deriving DecidableEq, Repr

/-- Modelled from the spec: the `topologyType` enumeration (§3). -/
inductive TopologyType where
  | Single
  | ReplicaSetNoPrimary
  | ReplicaSetWithPrimary
  | Sharded
  | LoadBalanced
  | Unknown
deriving DecidableEq, Repr

/-- Modelled from the spec: the immutable TopologyDescription value (§3);
`servers` is the address-keyed map of current ServerDescriptions, represented
as a list whose addresses are pairwise distinct in well-formed states. -/
structure TopologyDescription where
  topologyType : TopologyType
  setName : Option String
  maxSetVersion : Option Nat
  maxElectionId : Option Nat
  servers : List ServerDescription
deriving DecidableEq, Repr

/-- A Monitor start/stop action emitted by the reconciliation step (§4.2). -/
inductive MonitorAction where
  | start (a : Address)
  | stop (a : Address)
deriving DecidableEq, Repr

/-- The addresses currently in the `servers` map ("known server set"). -/
def keys (l : List ServerDescription) : List Address :=
  l.map (·.address)

/-- Replace the entry whose address matches `s.address` with `s`
(rule 2 of §4.2: "replace that address's entry unconditionally"). -/
def replaceServer (l : List ServerDescription) (s : ServerDescription) :
    List ServerDescription :=
  l.map fun e => if e.address = s.address then s else e

/-- The default ServerDescription of type Unknown for an address: per §3, a
description with `serverType == Unknown` carries no role-specific fields. -/
def markUnknown (a : Address) : ServerDescription :=
  ⟨a, .Unknown, none, none, none, none, [], [], [], []⟩

/-- Demote every server other than `a` currently marked RSPrimary to Unknown
(§4.2 rule 3b: enforces the single-primary invariant). -/
def demoteOthers (l : List ServerDescription) (a : Address) :
    List ServerDescription :=
  l.map fun e =>
    if e.address = a then e
    else if e.serverType = .RSPrimary then markUnknown e.address else e

/-- Remove the entry with address `a` from the map. -/
def removeServer (l : List ServerDescription) (a : Address) :
    List ServerDescription :=
  l.filter fun e => e.address ≠ a

/-- The address set a replica-set member advertises (§4.2 rule 3b:
`hosts/passives/arbiters`). -/
def advertised (s : ServerDescription) : List Address :=
  s.hosts ++ s.passives ++ s.arbiters

/-- Whether some server in the map is marked RSPrimary. -/
def hasPrimary (l : List ServerDescription) : Bool :=
  l.any fun e => e.serverType = .RSPrimary

/-- Rules 3b/3d of §4.2: after an update in a replica-set topology, the topology
type is ReplicaSetWithPrimary exactly when some server is RSPrimary. -/
def recomputeRSType (l : List ServerDescription) : TopologyType :=
  if hasPrimary l then .ReplicaSetWithPrimary else .ReplicaSetNoPrimary

/-- Modelled from the spec (§4.2 rule 3b): a primary report is stale when its
`(setVersion, electionId)` pair is strictly smaller, lexicographically, than
the recorded `maxSetVersion`/`maxElectionId`.  Components absent on either
side make the pairs incomparable, hence not stale. -/
def isStalePrimary (t : TopologyDescription) (s : ServerDescription) : Bool :=
  match t.maxSetVersion, t.maxElectionId, s.setVersion, s.electionId with
  | some msv, some meid, some sv, some eid =>
      sv < msv ∨ (sv = msv ∧ eid < meid)
  | _, _, _, _ => false

/-- Rule 3b of §4.2: on an accepted primary report, record its `setVersion` and
`electionId` as the new maxima (keeping the old value when absent). -/
def updatedMax (old : Option Nat) (incoming : Option Nat) : Option Nat :=
  match incoming with
  | some v => some v
  | none => old

/-- Rule 3b of §4.2: reconcile the known server set against the primary's
advertised list — keep only advertised addresses (stopping the Monitors of the
others) and add a default Unknown entry (starting a Monitor) for each
advertised address not yet known. -/
def reconcileMembership (l : List ServerDescription) (adv : List Address) :
    List ServerDescription × List MonitorAction :=
  let kept := l.filter fun e => e.address ∈ adv
  let stops := (l.filter fun e => e.address ∉ adv).map (.stop ·.address)
  let fresh := (adv.filter fun a => a ∉ keys l).dedup
  (kept ++ fresh.map markUnknown, stops ++ fresh.map .start)

/-- Modelled from the spec (§4.2 rules 3b–3d): the replica-set core, run after
the set-name check, on the topology whose entry for `s.address` has already
been replaced by `s`. -/
def handleRSCore (t : TopologyDescription) (s : ServerDescription) :
    TopologyDescription × List MonitorAction :=
  match s.serverType with
  | .RSPrimary =>
      if isStalePrimary t s then
        let l := replaceServer t.servers (markUnknown s.address)
        ({ t with servers := l, topologyType := recomputeRSType l }, [])
      else
        let l₁ := demoteOthers t.servers s.address
        let r := reconcileMembership l₁ (advertised s)
        ({ t with
            maxSetVersion := updatedMax t.maxSetVersion s.setVersion
            maxElectionId := updatedMax t.maxElectionId s.electionId
            servers := r.1
            topologyType := recomputeRSType r.1 }, r.2)
  | _ =>
      if hasPrimary t.servers then
        ({ t with topologyType := recomputeRSType t.servers }, [])
      else
        let fresh := ((advertised s).filter fun a => a ∉ keys t.servers).dedup
        let l := t.servers ++ fresh.map markUnknown
        ({ t with servers := l, topologyType := recomputeRSType l },
          fresh.map .start)

/-- Modelled from the spec (§4.2 rule 3, replica-set rules a–e): set-name
adoption/rejection for the member types that report a set name, then the
replica-set core; RSGhost and Unknown (and any other type) reports only update
the single entry, the topology type being recomputed per rule 3d. -/
def handleRS (t : TopologyDescription) (s : ServerDescription) :
    TopologyDescription × List MonitorAction :=
  match s.serverType with
  | .RSPrimary | .RSSecondary | .RSArbiter | .RSOther =>
      match t.setName, s.setName with
      | some n, some m =>
          if n = m then handleRSCore t s
          else
            let l := removeServer t.servers s.address
            ({ t with servers := l, topologyType := recomputeRSType l },
              [.stop s.address])
      | none, _ => handleRSCore { t with setName := s.setName } s
      | some _, none => handleRSCore t s
  | _ => ({ t with topologyType := recomputeRSType t.servers }, [])

/-- Modelled from the spec (§4.2): the Topology Coordinator's reconciliation
step.  Rule 1: an address not in `servers` is a no-op.  Rule 2: the entry is
replaced unconditionally.  Rule 3: dispatch on the topology type — Single and
LoadBalanced never change type or membership; Unknown transitions on the
first definite report (to Single only in the single-seed configuration, per
the spec's "only possible when the seed list had exactly one address");
Sharded demotes a non-{Unknown, Mongos} reporter to Unknown; the replica-set
types apply rules a–e via `handleRS`. -/
def reconcile (t : TopologyDescription) (s : ServerDescription) :
    TopologyDescription × List MonitorAction :=
  if s.address ∈ keys t.servers then
    let t' := { t with servers := replaceServer t.servers s }
    match t.topologyType with
    | .Single => (t', [])
    | .LoadBalanced => (t', [])
    | .Sharded =>
        match s.serverType with
        | .Unknown => (t', [])
        | .Mongos => (t', [])
        | _ =>
            ({ t' with
                servers := replaceServer t'.servers (markUnknown s.address) },
              [])
    | .Unknown =>
        match s.serverType with
        | .Standalone =>
            if t.servers.length = 1 then
              ({ t' with topologyType := .Single }, [])
            else (t', [])
        | .Mongos => ({ t' with topologyType := .Sharded }, [])
        | .RSPrimary | .RSSecondary | .RSArbiter | .RSOther => handleRS t' s
        | _ => (t', [])
    | .ReplicaSetNoPrimary => handleRS t' s
    | .ReplicaSetWithPrimary => handleRS t' s
  else (t, [])

/-- The topology produced by one reconciliation step. -/
def applyUpdate (t : TopologyDescription) (s : ServerDescription) :
    TopologyDescription :=
  (reconcile t s).1

/-- Folding a sequence of ServerDescription updates through the coordinator. -/
def applyUpdates (t : TopologyDescription) (us : List ServerDescription) :
    TopologyDescription :=
  us.foldl applyUpdate t

/-- The number of servers marked RSPrimary in a map. -/
def primaryCount (l : List ServerDescription) : Nat :=
  l.countP fun e => e.serverType = .RSPrimary

/-- Well-formedness of a TopologyDescription, per the §3 invariants and the
lifecycle: addresses are pairwise distinct; at most one server is RSPrimary;
a topology still of type Unknown has no primary; the Single and LoadBalanced
modes hold a single address. -/
def WellFormed (t : TopologyDescription) : Prop :=
  (keys t.servers).Nodup ∧
  primaryCount t.servers ≤ 1 ∧
  (t.topologyType = .Unknown → primaryCount t.servers = 0) ∧
  (t.topologyType = .Single → t.servers.length ≤ 1) ∧
  (t.topologyType = .LoadBalanced → t.servers.length ≤ 1)

instance (t : TopologyDescription) : Decidable (WellFormed t) := by
  unfold WellFormed; infer_instance

/-! ### Server Selector (§4.3) -/

/-- Modelled from the spec (§4.3): the read-preference modes of a selection
criterion. -/
inductive ReadMode where
  | primary
  | secondary
  | nearest
deriving DecidableEq, Repr

/-- Modelled from the spec (§4.3): a selection criterion — a read preference
mode plus tag sets. -/
structure Criterion where
  mode : ReadMode
  tagSets : List (List (String × String))
deriving DecidableEq, Repr

/-- The NoSuitableServer condition returned by the selector (§4.3, §7). -/
inductive SelectError where
  | noSuitableServer
deriving DecidableEq, Repr

instance : DecidableEq (Except SelectError (List ServerDescription))
  | .ok a, .ok b => decidable_of_iff (a = b) (by simp)
  | .error a, .error b => decidable_of_iff (a = b) (by simp)
  | .ok _, .error _ => isFalse (by simp)
  | .error _, .ok _ => isFalse (by simp)

/-- Modelled from the spec (§4.3 step 1): filter by topology-type-appropriate
role.  A server of type Unknown is never eligible. -/
def roleFilter (t : TopologyDescription) (c : Criterion) :
    List ServerDescription :=
  match t.topologyType with
  | .Unknown => []
  | .Single => t.servers.filter fun e => e.serverType ≠ .Unknown
  | .Sharded => t.servers.filter fun e => e.serverType = .Mongos
  | .LoadBalanced => t.servers.filter fun e => e.serverType = .LoadBalancer
  | .ReplicaSetNoPrimary | .ReplicaSetWithPrimary =>
      match c.mode with
      | .primary => t.servers.filter fun e => e.serverType = .RSPrimary
      | .secondary => t.servers.filter fun e => e.serverType = .RSSecondary
      | .nearest =>
          t.servers.filter fun e =>
            e.serverType = .RSPrimary ∨ e.serverType = .RSSecondary

/-- Modelled from the spec (§4.3 step 2): a server matches a tag set when it
carries every tag of the set; with no tag sets every server matches. -/
def tagFilter (c : Criterion) (l : List ServerDescription) :
    List ServerDescription :=
  if c.tagSets = [] then l
  else l.filter fun e => c.tagSets.any fun ts => ts.all (· ∈ e.tags)

/-- Modelled from the spec (§4.3 step 3): keep only candidates whose
`roundTripTimeMillis` is within the minimum among the candidates plus the
threshold. -/
def latencyWindow (l : List ServerDescription) (threshold : ℚ) :
    List ServerDescription :=
  match (l.filterMap (·.roundTripTimeMillis)).min? with
  | none => []
  | some m =>
      l.filter fun e =>
        match e.roundTripTimeMillis with
        | some r => r ≤ m + threshold
        | none => false

/-- Modelled from the spec (§4.3): the pure server selector — role filter,
tag filter, latency window; NoSuitableServer when no candidate survives. -/
def selectServer (t : TopologyDescription) (c : Criterion) (threshold : ℚ) :
    Except SelectError (List ServerDescription) :=
  let cands := latencyWindow (tagFilter c (roleFilter t c)) threshold
  if cands = [] then .error .noSuitableServer else .ok cands

/-! ### Monitor round-trip-time tracking (§4.1) -/

/-- Modelled from the spec (§4.1 step 2): the round-trip-time EWMA,
`new = alpha * measured + (1 - alpha) * old` with alpha = 0.2, seeded with
the first measurement. -/
def ewma (old : Option ℚ) (measured : ℚ) : ℚ :=
  match old with
  | none => measured
  | some o => (1 / 5) * measured + (4 / 5) * o

/-- Modelled from the spec (§4.1): one probe's effect on the tracked
`roundTripTimeMillis`; `some m` is a successful probe measuring latency `m`,
`none` a failed probe, which leaves the tracked value untouched. -/
def probeStep (rtt : Option ℚ) (outcome : Option ℚ) : Option ℚ :=
  match outcome with
  | none => rtt
  | some m => some (ewma rtt m)

/-- The tracked `roundTripTimeMillis` after a sequence of probe outcomes,
starting from the absent value. -/
def rttAfter (outcomes : List (Option ℚ)) : Option ℚ :=
  outcomes.foldl probeStep none

/-! ### The C accessor surface of `mongoc-server-description.h` -/

/-- The fields of `mongoc_server_description_t` reachable through the
accessors the header declares; the handshake response document is modelled as
a parsed key/value list. -/
structure mongoc_server_description_t where
  id : Nat
  last_update_time : Int
  round_trip_time : Int
  hello_response : List (String × String)
  compressor_id : Int
deriving DecidableEq, Repr

/-- Modelled from the spec: `mongoc_server_description_hello_response`
returns the server's last handshake ("hello") response document (the
implementation is not part of the repository fragment; the header declares
the accessor). -/
def mongoc_server_description_hello_response
    (d : mongoc_server_description_t) : List (String × String) :=
  d.hello_response

/-- Modelled from the spec: `mongoc_server_description_ismaster` is declared
by the header with `BSON_GNUC_DEPRECATED_FOR
(mongoc_server_description_hello_response)`: it is the deprecated name of the
same accessor and returns the same stored response document. -/
def mongoc_server_description_ismaster
    (d : mongoc_server_description_t) : List (String × String) :=
  d.hello_response

/-- Modelled from the spec: the header declares the global mutable testing
flag `extern bool mongoc_global_mock_service_id`, which "mocks the presence
of a serviceId field in the hello response".  Whether a parsed description
reports a serviceId as present is therefore a function of this ambient flag
and of whether the response itself carries the field. -/
def helloServiceId (mock_service_id : Bool)
    (response : List (String × String)) : Option String :=
  match response.lookup "serviceId" with
  | some v => some v
  | none => if mock_service_id then some "mocked" else none

/-! ### Concrete scenarios from the spec (§8) -/

/-- The initial TopologyDescription of the lifecycle (§3): a seed list of
addresses, all of type Unknown, in the automatic (Unknown) topology mode. -/
def seedTopology (as : List Address) : TopologyDescription :=
  ⟨.Unknown, none, none, none, as.map markUnknown⟩

/-- The §8 latency scenario: the primary at 5 ms. -/
def nearServer1 : ServerDescription :=
  ⟨1, .RSPrimary, some 5, some "rs0", some 1, some 1, [1, 2, 3], [], [], []⟩

/-- The §8 latency scenario: a secondary at 12 ms. -/
def nearServer2 : ServerDescription :=
  ⟨2, .RSSecondary, some 12, some "rs0", none, none, [1, 2, 3], [], [], []⟩

/-- The §8 latency scenario: a secondary at 40 ms. -/
def nearServer3 : ServerDescription :=
  ⟨3, .RSSecondary, some 40, some "rs0", none, none, [1, 2, 3], [], [], []⟩

/-- The §8 latency scenario: the replica set with round-trip times {5, 12, 40}. -/
def nearestScenario : TopologyDescription :=
  ⟨.ReplicaSetWithPrimary, some "rs0", some 1, some 1,
    [nearServer1, nearServer2, nearServer3]⟩

/-- The §8 stale-primary scenario: a replica set whose recorded maximum is
`(setVersion, electionId) = (1, 5)` with the primary at address 1. -/
def staleScenario : TopologyDescription :=
  ⟨.ReplicaSetWithPrimary, some "rs0", some 1, some 5,
    [⟨1, .RSPrimary, none, some "rs0", some 1, some 5, [1, 2], [], [], []⟩,
     ⟨2, .RSSecondary, none, some "rs0", none, none, [1, 2], [], [], []⟩]⟩

/-- The §8 stale-primary scenario: address 2 claims primacy with the older pair
`(1, 3)`. -/
def staleReport : ServerDescription :=
  ⟨2, .RSPrimary, none, some "rs0", some 1, some 3, [1, 2], [], [], []⟩

/-! ### Basic lemmas about the map operations -/

theorem markUnknown_address (a : Address) : (markUnknown a).address = a := rfl

theorem markUnknown_serverType (a : Address) :
    (markUnknown a).serverType = .Unknown := rfl

theorem mem_keys {a : Address} {l : List ServerDescription} :
    a ∈ keys l ↔ ∃ e ∈ l, e.address = a := by
  simp [keys]

theorem keys_replaceServer (l : List ServerDescription)
    (s : ServerDescription) : keys (replaceServer l s) = keys l := by
  simp only [keys, replaceServer, List.map_map]
  apply List.map_congr_left
  intro e _
  by_cases h : e.address = s.address <;> simp [h]

theorem keys_demoteOthers (l : List ServerDescription) (a : Address) :
    keys (demoteOthers l a) = keys l := by
  simp only [keys, demoteOthers, List.map_map]
  apply List.map_congr_left
  intro e _
  by_cases h1 : e.address = a
  · simp [h1]
  · by_cases h2 : e.serverType = .RSPrimary <;> simp [h1, h2, markUnknown]

theorem keys_append (l₁ l₂ : List ServerDescription) :
    keys (l₁ ++ l₂) = keys l₁ ++ keys l₂ := by
  simp [keys]

theorem keys_map_markUnknown (as : List Address) :
    keys (as.map markUnknown) = as := by
  simp [keys, List.map_map]
  exact List.map_id as

theorem replaceServer_replaceServer (l : List ServerDescription)
    {a b : ServerDescription} (h : b.address = a.address) :
    replaceServer (replaceServer l a) b = replaceServer l b := by
  simp only [replaceServer, List.map_map]
  apply List.map_congr_left
  intro e _
  by_cases he : e.address = a.address <;> simp [he, h]

theorem replaceServer_cons (e : ServerDescription)
    (l : List ServerDescription) (s : ServerDescription) :
    replaceServer (e :: l) s =
      (if e.address = s.address then s else e) :: replaceServer l s := rfl

theorem removeServer_cons (e : ServerDescription)
    (l : List ServerDescription) (a : Address) :
    removeServer (e :: l) a =
      if e.address = a then removeServer l a else e :: removeServer l a := by
  by_cases h : e.address = a <;> simp [removeServer, List.filter_cons, h]

theorem replaceServer_self {l : List ServerDescription}
    {s : ServerDescription} (h : ∀ e ∈ l, e.address = s.address → e = s) :
    replaceServer l s = l := by
  induction l with
  | nil => rfl
  | cons e l ih =>
      rw [replaceServer_cons, ih fun e' he' ha => h e' (by simp [he']) ha]
      by_cases he : e.address = s.address
      · rw [if_pos he, h e (by simp) he]
      · rw [if_neg he]

theorem mem_replaceServer_addr {l : List ServerDescription}
    {s e : ServerDescription} (he : e ∈ replaceServer l s)
    (ha : e.address = s.address) : e = s := by
  simp only [replaceServer, List.mem_map] at he
  obtain ⟨e', _, he'⟩ := he
  by_cases h : e'.address = s.address
  · simp [h] at he'; exact he'.symm
  · simp [h] at he'; subst he'; exact absurd ha h

theorem demoteOthers_cons (e : ServerDescription)
    (l : List ServerDescription) (a : Address) :
    demoteOthers (e :: l) a =
      (if e.address = a then e
       else if e.serverType = .RSPrimary then markUnknown e.address else e) ::
        demoteOthers l a := rfl

theorem demoteOthers_self {l : List ServerDescription} {a : Address}
    (h : ∀ e ∈ l, e.address ≠ a → e.serverType ≠ .RSPrimary) :
    demoteOthers l a = l := by
  induction l with
  | nil => rfl
  | cons e l ih =>
      rw [demoteOthers_cons, ih fun e' he' ha => h e' (by simp [he']) ha]
      by_cases he : e.address = a
      · rw [if_pos he]
      · rw [if_neg he, if_neg (h e (by simp) he)]

theorem mem_demoteOthers_primary {l : List ServerDescription} {a : Address}
    {e : ServerDescription} (he : e ∈ demoteOthers l a)
    (hp : e.serverType = .RSPrimary) : e.address = a := by
  simp only [demoteOthers, List.mem_map] at he
  obtain ⟨e', _, he'⟩ := he
  by_cases h1 : e'.address = a
  · simp [h1] at he'; subst he'; exact h1
  · by_cases h2 : e'.serverType = .RSPrimary
    · simp [h1, h2] at he'; subst he'; simp [markUnknown] at hp
    · simp [h1, h2] at he'; subst he'; exact absurd hp h2

theorem removeServer_replaceServer (l : List ServerDescription)
    (s : ServerDescription) :
    removeServer (replaceServer l s) s.address = removeServer l s.address := by
  induction l with
  | nil => rfl
  | cons e l ih =>
      by_cases he : e.address = s.address <;>
        simp [replaceServer_cons, removeServer_cons, he, ih]

theorem not_mem_keys_removeServer (l : List ServerDescription) (a : Address) :
    a ∉ keys (removeServer l a) := by
  simp only [keys, removeServer, List.mem_map, List.mem_filter]
  rintro ⟨e, ⟨_, hne⟩, ha⟩
  simp at hne
  exact hne ha

theorem keys_removeServer_sublist (l : List ServerDescription) (a : Address) :
    (keys (removeServer l a)).Sublist (keys l) :=
  (List.filter_sublist l).map _

theorem hasPrimary_append (l₁ l₂ : List ServerDescription) :
    hasPrimary (l₁ ++ l₂) = (hasPrimary l₁ || hasPrimary l₂) := by
  simp [hasPrimary]

theorem hasPrimary_map_markUnknown (as : List Address) :
    hasPrimary (as.map markUnknown) = false := by
  simp [hasPrimary, markUnknown]

theorem hasPrimary_iff {l : List ServerDescription} :
    hasPrimary l = true ↔ ∃ e ∈ l, e.serverType = .RSPrimary := by
  simp [hasPrimary]

theorem primaryCount_eq_zero {l : List ServerDescription} :
    primaryCount l = 0 ↔ ∀ e ∈ l, e.serverType ≠ .RSPrimary := by
  simp [primaryCount, List.countP_eq_zero]

theorem primaryCount_append (l₁ l₂ : List ServerDescription) :
    primaryCount (l₁ ++ l₂) = primaryCount l₁ + primaryCount l₂ :=
  List.countP_append _ _ _

theorem primaryCount_map_markUnknown (as : List Address) :
    primaryCount (as.map markUnknown) = 0 := by
  rw [primaryCount_eq_zero]
  intro e he
  simp only [List.mem_map] at he
  obtain ⟨a, _, rfl⟩ := he
  simp [markUnknown]

theorem primaryCount_filter_le (l : List ServerDescription)
    (q : ServerDescription → Bool) :
    primaryCount (l.filter q) ≤ primaryCount l :=
  (List.filter_sublist l).countP_le _

theorem primaryCount_removeServer_le (l : List ServerDescription)
    (a : Address) : primaryCount (removeServer l a) ≤ primaryCount l :=
  primaryCount_filter_le l _

theorem primaryCount_replaceServer_le (l : List ServerDescription)
    (s : ServerDescription) (h : s.serverType ≠ .RSPrimary) :
    primaryCount (replaceServer l s) ≤ primaryCount l := by
  induction l with
  | nil => simp [replaceServer]
  | cons e l ih =>
      rw [replaceServer_cons]
      by_cases he : e.address = s.address
      · rw [if_pos he]
        simp only [primaryCount, List.countP_cons] at *
        have hs : decide (s.serverType = ServerType.RSPrimary) = false := by
          simp [h]
        by_cases hp : e.serverType = .RSPrimary <;> simp [hs, hp] <;> omega
      · rw [if_neg he]
        simp only [primaryCount, List.countP_cons] at *
        omega

theorem primaryCount_le_length (l : List ServerDescription) :
    primaryCount l ≤ l.length :=
  List.countP_le_length _

theorem length_replaceServer (l : List ServerDescription)
    (s : ServerDescription) : (replaceServer l s).length = l.length :=
  List.length_map _ _

theorem primaryCount_le_one_of_addr (a : Address)
    {l : List ServerDescription} (hnd : (keys l).Nodup)
    (h : ∀ e ∈ l, e.serverType = .RSPrimary → e.address = a) :
    primaryCount l ≤ 1 := by
  induction l with
  | nil => simp [primaryCount]
  | cons e l ih =>
      simp only [keys, List.map_cons, List.nodup_cons] at hnd
      simp only [primaryCount, List.countP_cons] at *
      by_cases hp : e.serverType = .RSPrimary
      · have hea : e.address = a := h e (by simp) hp
        have hzero : primaryCount l = 0 := by
          rw [primaryCount_eq_zero]
          intro e' he' hp'
          have : e'.address = a := h e' (by simp [he']) hp'
          exact hnd.1 (hea ▸ this ▸ (List.mem_map.mpr ⟨e', he', rfl⟩))
        simp only [primaryCount] at hzero
        simp [hp, hzero]
      · have := ih (by simpa [keys] using hnd.2)
          fun e' he' hp' => h e' (by simp [he']) hp'
        simp only [primaryCount] at this
        simp [hp]
        omega

theorem nodup_keys_replaceServer {l : List ServerDescription}
    {s : ServerDescription} (h : (keys l).Nodup) :
    (keys (replaceServer l s)).Nodup := by
  rw [keys_replaceServer]; exact h

/-! ### Lemmas about `reconcileMembership` -/

theorem reconcileMembership_fst (l : List ServerDescription)
    (adv : List Address) :
    (reconcileMembership l adv).1 =
      (l.filter fun e => e.address ∈ adv) ++
        ((adv.filter fun a => a ∉ keys l).dedup).map markUnknown := rfl

theorem mem_reconcileMembership {l : List ServerDescription}
    {adv : List Address} {e : ServerDescription}
    (he : e ∈ (reconcileMembership l adv).1) :
    (e ∈ l ∧ e.address ∈ adv) ∨
      (∃ a ∈ adv, a ∉ keys l ∧ e = markUnknown a) := by
  rw [reconcileMembership_fst] at he
  rcases List.mem_append.mp he with h | h
  · left
    have := List.mem_filter.mp h
    exact ⟨this.1, by simpa using this.2⟩
  · right
    obtain ⟨a, ha, rfl⟩ := List.mem_map.mp h
    have := List.mem_filter.mp (List.mem_dedup.mp ha)
    exact ⟨a, this.1, by simpa using this.2, rfl⟩

theorem addr_mem_reconcileMembership {l : List ServerDescription}
    {adv : List Address} {e : ServerDescription}
    (he : e ∈ (reconcileMembership l adv).1) : e.address ∈ adv := by
  rcases mem_reconcileMembership he with ⟨_, h⟩ | ⟨a, ha, _, rfl⟩
  · exact h
  · rwa [markUnknown_address]

theorem adv_subset_keys_reconcileMembership {l : List ServerDescription}
    {adv : List Address} {a : Address} (ha : a ∈ adv) :
    a ∈ keys (reconcileMembership l adv).1 := by
  rw [reconcileMembership_fst, keys_append]
  refine List.mem_append.mpr ?_
  by_cases hk : a ∈ keys l
  · refine Or.inl ?_
    obtain ⟨e, he, rfl⟩ := mem_keys.mp hk
    exact mem_keys.mpr ⟨e, List.mem_filter.mpr ⟨he, by simpa using ha⟩, rfl⟩
  · refine Or.inr ?_
    rw [keys_map_markUnknown]
    exact List.mem_dedup.mpr (List.mem_filter.mpr ⟨ha, by simpa using hk⟩)

theorem nodup_keys_reconcileMembership {l : List ServerDescription}
    {adv : List Address} (h : (keys l).Nodup) :
    (keys (reconcileMembership l adv).1).Nodup := by
  rw [reconcileMembership_fst, keys_append, keys_map_markUnknown]
  refine List.Nodup.append ?_ (List.nodup_dedup _) ?_
  · exact h.sublist ((List.filter_sublist l).map _)
  · intro a hal had
    have hak : a ∈ keys l := by
      obtain ⟨e, he, rfl⟩ := mem_keys.mp hal
      exact mem_keys.mpr ⟨e, (List.mem_filter.mp he).1, rfl⟩
    have := (List.mem_filter.mp (List.mem_dedup.mp had)).2
    simp at this
    exact this hak

theorem reconcileMembership_self {l : List ServerDescription}
    {adv : List Address} (h1 : ∀ e ∈ l, e.address ∈ adv)
    (h2 : ∀ a ∈ adv, a ∈ keys l) :
    reconcileMembership l adv = (l, []) := by
  have hf : (l.filter fun e => e.address ∈ adv) = l :=
    List.filter_eq_self.mpr fun e he => by simpa using h1 e he
  have hg : (l.filter fun e => e.address ∉ adv) = [] := by
    rw [List.filter_eq_nil_iff]
    intro e he
    simp [h1 e he]
  have hd : (adv.filter fun a => a ∉ keys l) = [] := by
    rw [List.filter_eq_nil_iff]
    intro a ha
    simp [h2 a ha]
  unfold reconcileMembership
  rw [hf, hg, hd]
  simp

/-! ### Staleness and maxima -/

theorem updatedMax_idem (m v : Option Nat) :
    updatedMax (updatedMax m v) v = updatedMax m v := by
  cases v <;> rfl

theorem isStalePrimary_updatedMax (ty : TopologyType) (sn : Option String)
    (msv meid : Option Nat) (l : List ServerDescription)
    (s : ServerDescription) :
    isStalePrimary
      ⟨ty, sn, updatedMax msv s.setVersion, updatedMax meid s.electionId, l⟩
      s = false := by
  unfold isStalePrimary updatedMax
  rcases s.setVersion with _ | sv <;> rcases s.electionId with _ | eid <;>
    cases msv <;> cases meid <;> simp

theorem recomputeRSType_cases (l : List ServerDescription) :
    recomputeRSType l = .ReplicaSetNoPrimary ∨
      recomputeRSType l = .ReplicaSetWithPrimary := by
  unfold recomputeRSType
  split <;> simp

/-! ### Well-formedness facts about the replica-set handling -/

theorem handleRSCore_wf (ty : TopologyType) (sn : Option String)
    (msv meid : Option Nat) (l : List ServerDescription)
    (s : ServerDescription) (hnd : (keys l).Nodup)
    (hcnt : primaryCount l ≤ 1) :
    (keys (handleRSCore ⟨ty, sn, msv, meid, replaceServer l s⟩ s).1.servers).Nodup ∧
    primaryCount
      (handleRSCore ⟨ty, sn, msv, meid, replaceServer l s⟩ s).1.servers ≤ 1 ∧
    ((handleRSCore ⟨ty, sn, msv, meid, replaceServer l s⟩ s).1.topologyType =
        .ReplicaSetNoPrimary ∨
     (handleRSCore ⟨ty, sn, msv, meid, replaceServer l s⟩ s).1.topologyType =
        .ReplicaSetWithPrimary) := by
  obtain ⟨a, sty, rtt, ssn, ssv, seid, hs, ps, ar, tg⟩ := s
  cases sty
  case RSPrimary =>
    simp only [handleRSCore]
    split
    case isTrue hstale =>
      rw [replaceServer_replaceServer l (by rfl)]
      refine ⟨by rw [keys_replaceServer]; exact hnd, ?_, ?_⟩
      · exact le_trans
          (primaryCount_replaceServer_le l _ (by simp [markUnknown])) hcnt
      · exact recomputeRSType_cases _
    case isFalse hstale =>
      refine ⟨?_, ?_, ?_⟩
      · exact nodup_keys_reconcileMembership
          (by rw [keys_demoteOthers, keys_replaceServer]; exact hnd)
      · refine primaryCount_le_one_of_addr a
          (nodup_keys_reconcileMembership
            (by rw [keys_demoteOthers, keys_replaceServer]; exact hnd)) ?_
        intro e he hp
        rcases mem_reconcileMembership he with ⟨hel, _⟩ | ⟨b, _, _, rfl⟩
        · exact mem_demoteOthers_primary hel hp
        · simp [markUnknown] at hp
      · exact recomputeRSType_cases _
  all_goals
    simp only [handleRSCore]
    split
    case isTrue hp =>
      refine ⟨by rw [keys_replaceServer]; exact hnd, ?_,
        recomputeRSType_cases _⟩
      exact le_trans (primaryCount_replaceServer_le l _ (by simp)) hcnt
    case isFalse hp =>
      refine ⟨?_, ?_, recomputeRSType_cases _⟩
      · rw [keys_append, keys_map_markUnknown, keys_replaceServer]
        refine List.Nodup.append hnd (List.nodup_dedup _) ?_
        intro b hbl hbd
        have := (List.mem_filter.mp (List.mem_dedup.mp hbd)).2
        simp at this
        exact this hbl
      · rw [primaryCount_append, primaryCount_map_markUnknown, Nat.add_zero]
        exact le_trans (primaryCount_replaceServer_le l _ (by simp)) hcnt

theorem removeServer_replaceServer_addr (l : List ServerDescription)
    (s : ServerDescription) {a : Address} (h : s.address = a) :
    removeServer (replaceServer l s) a = removeServer l a :=
  h ▸ removeServer_replaceServer l s

theorem handleRS_wf (ty : TopologyType) (sn : Option String)
    (msv meid : Option Nat) (l : List ServerDescription)
    (s : ServerDescription) (hnd : (keys l).Nodup)
    (hcnt : primaryCount l ≤ 1) :
    (keys (handleRS ⟨ty, sn, msv, meid, replaceServer l s⟩ s).1.servers).Nodup ∧
    primaryCount
      (handleRS ⟨ty, sn, msv, meid, replaceServer l s⟩ s).1.servers ≤ 1 ∧
    ((handleRS ⟨ty, sn, msv, meid, replaceServer l s⟩ s).1.topologyType =
        .ReplicaSetNoPrimary ∨
     (handleRS ⟨ty, sn, msv, meid, replaceServer l s⟩ s).1.topologyType =
        .ReplicaSetWithPrimary) := by
  obtain ⟨a, sty, rtt, ssn, ssv, seid, hs, ps, ar, tg⟩ := s
  cases sty <;> simp only [handleRS] <;>
    first
    | exact ⟨nodup_keys_replaceServer hnd,
        le_trans (primaryCount_replaceServer_le l _ (by simp)) hcnt,
        recomputeRSType_cases _⟩
    | · rcases sn with _ | n
        · exact handleRSCore_wf ty ssn msv meid l _ hnd hcnt
        · rcases ssn with _ | m
          · exact handleRSCore_wf ty (some n) msv meid l _ hnd hcnt
          · by_cases hnm : n = m
            · simp only [if_pos hnm]
              exact handleRSCore_wf ty (some n) msv meid l _ hnd hcnt
            · simp only [if_neg hnm]
              rw [removeServer_replaceServer_addr _ _ rfl]
              exact ⟨(keys_removeServer_sublist l a).nodup hnd,
                le_trans (primaryCount_removeServer_le l a) hcnt,
                recomputeRSType_cases _⟩

theorem reconcile_not_mem {t : TopologyDescription} {s : ServerDescription}
    (h : s.address ∉ keys t.servers) : reconcile t s = (t, []) := by
  unfold reconcile
  rw [if_neg h]

/-- One reconciliation step preserves well-formedness of the topology. -/
theorem wellFormed_applyUpdate (t : TopologyDescription)
    (s : ServerDescription) (h : WellFormed t) :
    WellFormed (applyUpdate t s) := by
  by_cases hmem : s.address ∈ keys t.servers
  · obtain ⟨hnd, hcnt, hunk, hsing, hlb⟩ := h
    obtain ⟨ty, sn, msv, meid, l⟩ := t
    simp only at hnd hcnt hunk hsing hlb hmem
    cases ty with
    | Single =>
      have hlen : l.length ≤ 1 := hsing rfl
      simp only [applyUpdate, reconcile, if_pos hmem]
      refine ⟨nodup_keys_replaceServer hnd, ?_, by simp, ?_, by simp⟩
      · calc primaryCount (replaceServer l s) ≤ (replaceServer l s).length :=
            primaryCount_le_length _
          _ ≤ 1 := by rw [length_replaceServer]; exact hlen
      · intro
        rw [length_replaceServer]
        exact hlen
    | LoadBalanced =>
      have hlen : l.length ≤ 1 := hlb rfl
      simp only [applyUpdate, reconcile, if_pos hmem]
      refine ⟨nodup_keys_replaceServer hnd, ?_, by simp, by simp, ?_⟩
      · calc primaryCount (replaceServer l s) ≤ (replaceServer l s).length :=
            primaryCount_le_length _
          _ ≤ 1 := by rw [length_replaceServer]; exact hlen
      · intro
        rw [length_replaceServer]
        exact hlen
    | Sharded =>
      obtain ⟨a, sty, rtt, ssn, ssv, seid, hs, ps, ar, tg⟩ := s
      cases sty <;> simp only [applyUpdate, reconcile, if_pos hmem] <;>
        first
        | exact ⟨nodup_keys_replaceServer hnd,
            le_trans (primaryCount_replaceServer_le l _ (by simp)) hcnt,
            by simp, by simp, by simp⟩
        | · rw [replaceServer_replaceServer l (by rfl)]
            exact ⟨nodup_keys_replaceServer hnd,
              le_trans (primaryCount_replaceServer_le l _ (by simp [markUnknown]))
                hcnt,
              by simp, by simp, by simp⟩
    | Unknown =>
      have h0 : primaryCount l = 0 := hunk rfl
      obtain ⟨a, sty, rtt, ssn, ssv, seid, hs, ps, ar, tg⟩ := s
      cases sty with
      | Standalone =>
        simp only [applyUpdate, reconcile, if_pos hmem]
        have hle := primaryCount_replaceServer_le l
          ⟨a, .Standalone, rtt, ssn, ssv, seid, hs, ps, ar, tg⟩ (by simp)
        split
        next hlen =>
          refine ⟨nodup_keys_replaceServer hnd, ?_, by simp, ?_, by simp⟩
          · exact le_trans (h0 ▸ hle) (Nat.zero_le 1)
          · intro
            rw [length_replaceServer, hlen]
        next hlen =>
          exact ⟨nodup_keys_replaceServer hnd, le_trans (h0 ▸ hle)
            (Nat.zero_le 1), fun _ => Nat.le_zero.mp (h0 ▸ hle), by simp,
            by simp⟩
      | Mongos =>
        simp only [applyUpdate, reconcile, if_pos hmem]
        exact ⟨nodup_keys_replaceServer hnd,
          le_trans (primaryCount_replaceServer_le l _ (by simp)) (by omega),
          by simp, by simp, by simp⟩
      | RSPrimary =>
        simp only [applyUpdate, reconcile, if_pos hmem]
        obtain ⟨h1, h2, h3⟩ := handleRS_wf .Unknown sn msv meid l _ hnd
          (by omega)
        refine ⟨h1, h2, ?_, ?_, ?_⟩ <;> rcases h3 with h | h <;> simp [h]
      | RSSecondary =>
        simp only [applyUpdate, reconcile, if_pos hmem]
        obtain ⟨h1, h2, h3⟩ := handleRS_wf .Unknown sn msv meid l _ hnd
          (by omega)
        refine ⟨h1, h2, ?_, ?_, ?_⟩ <;> rcases h3 with h | h <;> simp [h]
      | RSArbiter =>
        simp only [applyUpdate, reconcile, if_pos hmem]
        obtain ⟨h1, h2, h3⟩ := handleRS_wf .Unknown sn msv meid l _ hnd
          (by omega)
        refine ⟨h1, h2, ?_, ?_, ?_⟩ <;> rcases h3 with h | h <;> simp [h]
      | RSOther =>
        simp only [applyUpdate, reconcile, if_pos hmem]
        obtain ⟨h1, h2, h3⟩ := handleRS_wf .Unknown sn msv meid l _ hnd
          (by omega)
        refine ⟨h1, h2, ?_, ?_, ?_⟩ <;> rcases h3 with h | h <;> simp [h]
      | Unknown =>
        simp only [applyUpdate, reconcile, if_pos hmem]
        have hle := primaryCount_replaceServer_le l
          ⟨a, .Unknown, rtt, ssn, ssv, seid, hs, ps, ar, tg⟩ (by simp)
        exact ⟨nodup_keys_replaceServer hnd, le_trans (h0 ▸ hle)
          (Nat.zero_le 1), fun _ => Nat.le_zero.mp (h0 ▸ hle), by simp,
          by simp⟩
      | PossiblePrimary =>
        simp only [applyUpdate, reconcile, if_pos hmem]
        have hle := primaryCount_replaceServer_le l
          ⟨a, .PossiblePrimary, rtt, ssn, ssv, seid, hs, ps, ar, tg⟩
          (by simp)
        exact ⟨nodup_keys_replaceServer hnd, le_trans (h0 ▸ hle)
          (Nat.zero_le 1), fun _ => Nat.le_zero.mp (h0 ▸ hle), by simp,
          by simp⟩
      | RSGhost =>
        simp only [applyUpdate, reconcile, if_pos hmem]
        have hle := primaryCount_replaceServer_le l
          ⟨a, .RSGhost, rtt, ssn, ssv, seid, hs, ps, ar, tg⟩ (by simp)
        exact ⟨nodup_keys_replaceServer hnd, le_trans (h0 ▸ hle)
          (Nat.zero_le 1), fun _ => Nat.le_zero.mp (h0 ▸ hle), by simp,
          by simp⟩
      | LoadBalancer =>
        simp only [applyUpdate, reconcile, if_pos hmem]
        have hle := primaryCount_replaceServer_le l
          ⟨a, .LoadBalancer, rtt, ssn, ssv, seid, hs, ps, ar, tg⟩ (by simp)
        exact ⟨nodup_keys_replaceServer hnd, le_trans (h0 ▸ hle)
          (Nat.zero_le 1), fun _ => Nat.le_zero.mp (h0 ▸ hle), by simp,
          by simp⟩
    | ReplicaSetNoPrimary =>
      obtain ⟨h1, h2, h3⟩ := handleRS_wf .ReplicaSetNoPrimary sn msv meid l s
        hnd hcnt
      simp only [applyUpdate, reconcile, if_pos hmem]
      refine ⟨h1, h2, ?_, ?_, ?_⟩ <;> rcases h3 with h | h <;> simp [h]
    | ReplicaSetWithPrimary =>
      obtain ⟨h1, h2, h3⟩ := handleRS_wf .ReplicaSetWithPrimary sn msv meid l
        s hnd hcnt
      simp only [applyUpdate, reconcile, if_pos hmem]
      refine ⟨h1, h2, ?_, ?_, ?_⟩ <;> rcases h3 with h | h <;> simp [h]
  · unfold applyUpdate
    rw [reconcile_not_mem hmem]
    exact h

/-- C1: folding any sequence of ServerDescription updates through the
Topology Coordinator's reconciliation step, starting from any well-formed
initial TopologyDescription, yields a TopologyDescription containing at most
one server whose serverType is RSPrimary. -/
theorem fold_at_most_one_primary (t : TopologyDescription)
    (us : List ServerDescription) (h : WellFormed t) :
    primaryCount (applyUpdates t us).servers ≤ 1 := by
  suffices hw : WellFormed (applyUpdates t us) from hw.2.1
  induction us generalizing t with
  | nil => exact h
  | cons u us ih => exact ih (applyUpdate t u) (wellFormed_applyUpdate t u h)

theorem fold_at_most_one_primary_witness :
    WellFormed (seedTopology [1, 2, 3]) ∧
    primaryCount (applyUpdates (seedTopology [1, 2, 3])
      [⟨1, .RSPrimary, none, some "rs0", some 1, some 5, [1, 2, 3], [], [],
        []⟩,
       ⟨2, .RSPrimary, none, some "rs0", some 1, some 3, [1, 2, 3], [], [],
        []⟩]).servers ≤ 1 :=
  ⟨by decide, fold_at_most_one_primary _ _ (by decide)⟩

/-- C8: an update reported for an address that is not a key of
`t.servers` is ignored: the reconciliation step returns the topology
unchanged and emits no Monitor start/stop action. -/
theorem unknown_address_no_op (t : TopologyDescription)
    (s : ServerDescription) (h : s.address ∉ keys t.servers) :
    reconcile t s = (t, []) :=
  reconcile_not_mem h

theorem unknown_address_no_op_witness :
    (⟨5, .RSSecondary, none, none, none, none, [], [], [],
        []⟩ : ServerDescription).address ∉
      keys (seedTopology [1, 2]).servers ∧
    reconcile (seedTopology [1, 2])
        ⟨5, .RSSecondary, none, none, none, none, [], [], [], []⟩ =
      (seedTopology [1, 2], []) :=
  ⟨by decide, unknown_address_no_op _ _ (by decide)⟩

/-- C4: in a replica-set topology whose setName is established, a member
reporting a different setName is never left in `servers`: the reconciliation
step removes it and emits a stop action for its Monitor. -/
theorem setName_mismatch_removed (t : TopologyDescription)
    (s : ServerDescription) (n m : String)
    (hty : t.topologyType = .ReplicaSetNoPrimary ∨
      t.topologyType = .ReplicaSetWithPrimary)
    (htn : t.setName = some n) (hsn : s.setName = some m) (hnm : n ≠ m)
    (hmember : s.serverType = .RSPrimary ∨ s.serverType = .RSSecondary ∨
      s.serverType = .RSArbiter ∨ s.serverType = .RSOther) :
    s.address ∉ keys (reconcile t s).1.servers ∧
    (s.address ∈ keys t.servers →
      MonitorAction.stop s.address ∈ (reconcile t s).2) := by
  by_cases hmem : s.address ∈ keys t.servers
  · obtain ⟨ty, sn, msv, meid, l⟩ := t
    obtain ⟨a, sty, rtt, ssn, ssv, seid, hs, ps, ar, tg⟩ := s
    simp only at htn hsn hmem
    subst htn hsn
    rcases hty with h | h <;> simp only at h <;> subst h <;>
      rcases hmember with h | h | h | h <;> simp only at h <;> subst h <;>
      simp only [reconcile, if_pos hmem, handleRS, if_neg hnm] <;>
      exact ⟨not_mem_keys_removeServer _ _, fun _ => by simp⟩
  · rw [reconcile_not_mem hmem]
    exact ⟨hmem, fun hc => absurd hc hmem⟩

theorem setName_mismatch_removed_witness :
    (⟨2, .RSSecondary, none, some "other", none, none, [], [], [],
        []⟩ : ServerDescription).address ∉
      keys (reconcile
        ⟨.ReplicaSetWithPrimary, some "rs0", some 1, some 1,
          [⟨1, .RSPrimary, none, some "rs0", some 1, some 1, [1, 2], [], [],
            []⟩,
           ⟨2, .RSSecondary, none, some "other", none, none, [], [], [], []⟩]⟩
        ⟨2, .RSSecondary, none, some "other", none, none, [], [], [],
          []⟩).1.servers :=
  (setName_mismatch_removed _ _ "rs0" "other" (Or.inr rfl) rfl rfl
    (by decide) (Or.inr (Or.inl rfl))).1

/-- C2: in a replica-set topology with recorded maxSetVersion/maxElectionId,
an RSPrimary report from a member whose (setVersion, electionId) pair is
strictly smaller than the recorded maximum is discarded: the maxima are
unchanged, every other server's description is unchanged (in particular the
recorded primary), and the reporting server's entry is demoted to Unknown
rather than trusted as primary. -/
theorem stale_primary_report_rejected (t : TopologyDescription)
    (s : ServerDescription) (msv meid sv eid : Nat)
    (hty : t.topologyType = .ReplicaSetNoPrimary ∨
      t.topologyType = .ReplicaSetWithPrimary)
    (hmem : s.address ∈ keys t.servers)
    (hst : s.serverType = .RSPrimary)
    (hname : t.setName = none ∨ s.setName = none ∨ s.setName = t.setName)
    (hmsv : t.maxSetVersion = some msv) (hmeid : t.maxElectionId = some meid)
    (hsv : s.setVersion = some sv) (heid : s.electionId = some eid)
    (hlt : sv < msv ∨ (sv = msv ∧ eid < meid)) :
    (applyUpdate t s).maxSetVersion = t.maxSetVersion ∧
    (applyUpdate t s).maxElectionId = t.maxElectionId ∧
    (applyUpdate t s).servers =
      t.servers.map fun e =>
        if e.address = s.address then markUnknown s.address else e := by
  obtain ⟨ty, sn, msv', meid', l⟩ := t
  obtain ⟨a, sty, rtt, ssn, ssv, seid, hs, ps, ar, tg⟩ := s
  simp only at hmsv hmeid hsv heid hst hname hmem
  subst hmsv hmeid hsv heid hst
  have hstale : ∀ (ty' : TopologyType) (sn' : Option String)
      (l' : List ServerDescription),
      isStalePrimary ⟨ty', sn', some msv, some meid, l'⟩
        ⟨a, .RSPrimary, rtt, ssn, some sv, some eid, hs, ps, ar, tg⟩ =
        true := fun _ _ _ => decide_eq_true hlt
  have hserv : replaceServer (replaceServer l
      ⟨a, .RSPrimary, rtt, ssn, some sv, some eid, hs, ps, ar, tg⟩)
      (markUnknown a) = replaceServer l (markUnknown a) :=
    replaceServer_replaceServer l (by rfl)
  rcases hty with h | h <;> simp only at h <;> subst h <;>
    rcases hname with h | h | h
  · subst h
    simp only [applyUpdate, reconcile, if_pos hmem, handleRS, handleRSCore,
      hstale, if_true, hserv]
    exact ⟨trivial, trivial, rfl⟩
  · subst h
    rcases sn with _ | n <;>
      simp only [applyUpdate, reconcile, if_pos hmem, handleRS, handleRSCore,
        hstale, if_true, hserv] <;>
      exact ⟨trivial, trivial, rfl⟩
  · subst h
    rcases ssn with _ | n <;>
      simp only [applyUpdate, reconcile, if_pos hmem, handleRS, handleRSCore,
        hstale, if_true, if_pos rfl, hserv] <;>
      exact ⟨trivial, trivial, rfl⟩
  · subst h
    simp only [applyUpdate, reconcile, if_pos hmem, handleRS, handleRSCore,
      hstale, if_true, hserv]
    exact ⟨trivial, trivial, rfl⟩
  · subst h
    rcases sn with _ | n <;>
      simp only [applyUpdate, reconcile, if_pos hmem, handleRS, handleRSCore,
        hstale, if_true, hserv] <;>
      exact ⟨trivial, trivial, rfl⟩
  · subst h
    rcases ssn with _ | n <;>
      simp only [applyUpdate, reconcile, if_pos hmem, handleRS, handleRSCore,
        hstale, if_true, if_pos rfl, hserv] <;>
      exact ⟨trivial, trivial, rfl⟩

theorem stale_primary_report_rejected_witness :
    staleReport.address ∈ keys staleScenario.servers ∧
    (applyUpdate staleScenario staleReport).maxSetVersion =
      staleScenario.maxSetVersion ∧
    (applyUpdate staleScenario staleReport).maxElectionId =
      staleScenario.maxElectionId ∧
    (applyUpdate staleScenario staleReport).servers =
      staleScenario.servers.map fun e =>
        if e.address = staleReport.address then
          markUnknown staleReport.address
        else e :=
  ⟨by decide, stale_primary_report_rejected staleScenario staleReport 1 5 1 3
    (Or.inr rfl) (by decide) rfl (Or.inr (Or.inr rfl)) rfl rfl rfl rfl
    (Or.inr ⟨rfl, by decide⟩)⟩

/-- C6: in a topology where every server's serverType is Unknown,
`selectServer` returns the NoSuitableServer error for every selection
criterion and latency threshold. -/
theorem all_unknown_no_suitable_server (t : TopologyDescription)
    (c : Criterion) (threshold : ℚ)
    (h : ∀ e ∈ t.servers, e.serverType = .Unknown) :
    selectServer t c threshold = .error .noSuitableServer := by
  have hrole : roleFilter t c = [] := by
    obtain ⟨ty, sn, msv, meid, l⟩ := t
    simp only at h
    cases ty with
    | Unknown => rfl
    | Single =>
        simp only [roleFilter]
        rw [List.filter_eq_nil_iff]
        intro e he
        simp [h e he]
    | Sharded =>
        simp only [roleFilter]
        rw [List.filter_eq_nil_iff]
        intro e he
        simp [h e he]
    | LoadBalanced =>
        simp only [roleFilter]
        rw [List.filter_eq_nil_iff]
        intro e he
        simp [h e he]
    | ReplicaSetNoPrimary =>
        simp only [roleFilter]
        cases c.mode <;>
          (rw [List.filter_eq_nil_iff]; intro e he; simp [h e he])
    | ReplicaSetWithPrimary =>
        simp only [roleFilter]
        cases c.mode <;>
          (rw [List.filter_eq_nil_iff]; intro e he; simp [h e he])
  have htag : tagFilter c [] = [] := by
    unfold tagFilter
    split <;> simp
  rw [selectServer, hrole, htag]
  rfl

theorem all_unknown_no_suitable_server_witness :
    (∀ e ∈ (seedTopology [1, 2, 3]).servers, e.serverType = .Unknown) ∧
    selectServer (seedTopology [1, 2, 3]) ⟨.nearest, []⟩ 15 =
      .error .noSuitableServer :=
  ⟨by decide,
   all_unknown_no_suitable_server (seedTopology [1, 2, 3]) ⟨.nearest, []⟩ 15
     (by decide)⟩

/-- C5: the latency-window step of the Server Selector keeps exactly the
candidates whose roundTripTimeMillis is at most the minimum among the
candidates plus the threshold; concretely, on the replica set with
round-trip times {5, 12, 40} ms and the default 15 ms threshold, the
selector with the "nearest" preference returns the 5 ms and 12 ms servers
only. -/
theorem latency_window_selection :
    (∀ (l : List ServerDescription) (θ m : ℚ),
      (l.filterMap (·.roundTripTimeMillis)).min? = some m →
      ∀ e ∈ l, (e ∈ latencyWindow l θ ↔
        ∃ r, e.roundTripTimeMillis = some r ∧ r ≤ m + θ)) ∧
    selectServer nearestScenario ⟨.nearest, []⟩ 15 =
      .ok [nearServer1, nearServer2] := by
  constructor
  · intro l θ m hm e he
    simp only [latencyWindow, hm, List.mem_filter]
    rcases hr : e.roundTripTimeMillis with _ | r <;> simp [hr, he]
  · have h1 : roleFilter nearestScenario ⟨.nearest, []⟩ =
        [nearServer1, nearServer2, nearServer3] := rfl
    have h2 : tagFilter ⟨.nearest, []⟩ [nearServer1, nearServer2, nearServer3]
        = [nearServer1, nearServer2, nearServer3] := rfl
    have h3 : latencyWindow [nearServer1, nearServer2, nearServer3] 15 =
        [nearServer1, nearServer2] := by
      have hmin : ([nearServer1, nearServer2, nearServer3].filterMap
          (·.roundTripTimeMillis)).min? = some 5 := by decide
      have d1 : decide ((5 : ℚ) ≤ 5 + 15) = true := by norm_num
      have d2 : decide ((12 : ℚ) ≤ 5 + 15) = true := by norm_num
      have d3 : decide ((40 : ℚ) ≤ 5 + 15) = false := by norm_num
      simp only [latencyWindow]
      rw [hmin]
      simp [nearServer1, nearServer2, nearServer3, List.filter_cons, d1, d2,
        d3]
    unfold selectServer
    rw [h1, h2, h3]
    rfl

theorem latency_window_selection_witness :
    ([nearServer1, nearServer2, nearServer3].filterMap
        (·.roundTripTimeMillis)).min? = some 5 ∧
    (nearServer2 ∈ latencyWindow [nearServer1, nearServer2, nearServer3] 15 ↔
      ∃ r, nearServer2.roundTripTimeMillis = some r ∧ r ≤ 5 + 15) :=
  ⟨by decide,
   latency_window_selection.1 [nearServer1, nearServer2, nearServer3] 15 5
     (by decide) nearServer2 (by decide)⟩

/-- C7: the tracked roundTripTimeMillis is absent until at least one
successful probe, equals the measured latency after the first success, and
is updated by the EWMA rule new = 0.2 * measured + 0.8 * old on every later
success. -/
theorem round_trip_time_ewma :
    (∀ outcomes : List (Option ℚ), (∀ o ∈ outcomes, o = none) →
      rttAfter outcomes = none) ∧
    (∀ (outcomes : List (Option ℚ)) (m : ℚ), rttAfter outcomes = none →
      rttAfter (outcomes ++ [some m]) = some m) ∧
    (∀ (outcomes : List (Option ℚ)) (o m : ℚ), rttAfter outcomes = some o →
      rttAfter (outcomes ++ [some m]) =
        some ((1 / 5) * m + (4 / 5) * o)) := by
  refine ⟨?_, ?_, ?_⟩
  · intro outcomes h
    induction outcomes with
    | nil => rfl
    | cons o os ih =>
        have ho := h o (by simp)
        subst ho
        exact ih fun o ho' => h o (by simp [ho'])
  · intro outcomes m h
    unfold rttAfter at *
    rw [List.foldl_append, h]
    rfl
  · intro outcomes o m h
    unfold rttAfter at *
    rw [List.foldl_append, h]
    rfl

theorem round_trip_time_ewma_witness :
    rttAfter [none, some 10] = some 10 ∧
    rttAfter [none, some 10, some 20] =
      some ((1 / 5) * 20 + (4 / 5) * 10) :=
  ⟨round_trip_time_ewma.2.1 [none] 10 rfl,
   round_trip_time_ewma.2.2 [none, some 10] 10 20
     (round_trip_time_ewma.2.1 [none] 10 rfl)⟩

/-- C10: `mongoc_server_description_ismaster`, which the header marks as
deprecated in favour of `mongoc_server_description_hello_response`, returns
the same handshake-response document as the latter for every server
description. -/
theorem ismaster_eq_hello_response (d : mongoc_server_description_t) :
    mongoc_server_description_ismaster d =
      mongoc_server_description_hello_response d := rfl

/-- C9 (counterexample): the observable result of hello-response parsing is
not independent of the ambient global `mongoc_global_mock_service_id` flag:
two runs on the identical (empty) response differ when the flag differs. -/
theorem global_flag_changes_behavior :
    ¬ (helloServiceId true [] = helloServiceId false []) := by decide

/-- C9 (amended): the parsed serviceId is a function of the input response
and of the ambient `mongoc_global_mock_service_id` flag, and the flag is the
only ambient influence — whenever the parsed serviceId differs from the
response's own field, the flag is set and the response lacks the field. -/
theorem behavior_function_of_flag_and_input (g : Bool)
    (resp : List (String × String))
    (h : helloServiceId g resp ≠ resp.lookup "serviceId") :
    g = true ∧ resp.lookup "serviceId" = none := by
  unfold helloServiceId at h
  rcases hl : resp.lookup "serviceId" with _ | v
  · rw [hl] at h
    cases g
    · simp at h
    · exact ⟨rfl, rfl⟩
  · rw [hl] at h
    simp at h

theorem behavior_function_of_flag_and_input_witness :
    (helloServiceId true [] ≠
      ([] : List (String × String)).lookup "serviceId") ∧
    (true = true ∧ ([] : List (String × String)).lookup "serviceId" = none) :=
  ⟨by decide, behavior_function_of_flag_and_input true [] (by decide)⟩

/-! ### Idempotence of the reconciliation step -/

theorem mem_demoteOthers_addr {l : List ServerDescription} {a : Address}
    {e : ServerDescription} (he : e ∈ demoteOthers l a)
    (ha : e.address = a) : e ∈ l := by
  simp only [demoteOthers, List.mem_map] at he
  obtain ⟨e', he', heq⟩ := he
  by_cases h1 : e'.address = a
  · simp only [if_pos h1] at heq
    subst heq
    exact he'
  · by_cases h2 : e'.serverType = .RSPrimary
    · simp only [if_neg h1, if_pos h2] at heq
      subst heq
      rw [markUnknown_address] at ha
      exact absurd ha h1
    · simp only [if_neg h1, if_neg h2] at heq
      subst heq
      exact absurd ha h1

theorem handleRSCore_primary_eq (t : TopologyDescription)
    (s : ServerDescription) (h : s.serverType = .RSPrimary) :
    handleRSCore t s =
      if isStalePrimary t s then
        ({ t with
            servers := replaceServer t.servers (markUnknown s.address),
            topologyType := recomputeRSType
              (replaceServer t.servers (markUnknown s.address)) }, [])
      else
        ({ t with
            maxSetVersion := updatedMax t.maxSetVersion s.setVersion,
            maxElectionId := updatedMax t.maxElectionId s.electionId,
            servers := (reconcileMembership (demoteOthers t.servers s.address)
              (advertised s)).1,
            topologyType := recomputeRSType
              (reconcileMembership (demoteOthers t.servers s.address)
                (advertised s)).1 },
          (reconcileMembership (demoteOthers t.servers s.address)
            (advertised s)).2) := by
  obtain ⟨a, sty, rtt, ssn, ssv, seid, hs, ps, ar, tg⟩ := s
  simp only at h
  subst h
  rfl

theorem handleRSCore_other_eq (t : TopologyDescription)
    (s : ServerDescription) (h : s.serverType ≠ .RSPrimary) :
    handleRSCore t s =
      if hasPrimary t.servers then
        ({ t with topologyType := recomputeRSType t.servers }, [])
      else
        ({ t with
            servers := t.servers ++
              (((advertised s).filter fun b =>
                b ∉ keys t.servers).dedup).map markUnknown,
            topologyType := recomputeRSType (t.servers ++
              (((advertised s).filter fun b =>
                b ∉ keys t.servers).dedup).map markUnknown) },
          (((advertised s).filter fun b =>
            b ∉ keys t.servers).dedup).map .start) := by
  obtain ⟨a, sty, rtt, ssn, ssv, seid, hs, ps, ar, tg⟩ := s
  cases sty <;> first | (exact absurd rfl h) | rfl

theorem handleRS_member_eq (t : TopologyDescription) (s : ServerDescription)
    (h : s.serverType = .RSPrimary ∨ s.serverType = .RSSecondary ∨
      s.serverType = .RSArbiter ∨ s.serverType = .RSOther) :
    handleRS t s =
      match t.setName, s.setName with
      | some n, some m =>
          if n = m then handleRSCore t s
          else
            ({ t with
                servers := removeServer t.servers s.address,
                topologyType := recomputeRSType
                  (removeServer t.servers s.address) },
              [.stop s.address])
      | none, _ => handleRSCore { t with setName := s.setName } s
      | some _, none => handleRSCore t s := by
  obtain ⟨a, sty, rtt, ssn, ssv, seid, hs, ps, ar, tg⟩ := s
  rcases h with h | h | h | h <;> simp only at h <;> subst h <;> rfl

theorem handleRS_other_eq (t : TopologyDescription) (s : ServerDescription)
    (h : ¬(s.serverType = .RSPrimary ∨ s.serverType = .RSSecondary ∨
      s.serverType = .RSArbiter ∨ s.serverType = .RSOther)) :
    handleRS t s = ({ t with topologyType := recomputeRSType t.servers },
      []) := by
  obtain ⟨a, sty, rtt, ssn, ssv, seid, hs, ps, ar, tg⟩ := s
  cases sty <;> first | rfl | (exact absurd (by simp) h)

theorem isStalePrimary_fields (ty ty' : TopologyType) (sn sn' : Option String)
    (msv meid : Option Nat) (L L' : List ServerDescription)
    (s : ServerDescription) :
    isStalePrimary ⟨ty, sn, msv, meid, L⟩ s =
      isStalePrimary ⟨ty', sn', msv, meid, L'⟩ s := rfl

theorem handleRSCore_idem (ty₁ ty₂ : TopologyType) (sn₁ sn₂ : Option String)
    (msv meid : Option Nat) (l : List ServerDescription)
    (s : ServerDescription) (hmem : s.address ∈ keys l) :
    (handleRSCore ⟨ty₂, sn₂,
        (handleRSCore ⟨ty₁, sn₁, msv, meid,
          replaceServer l s⟩ s).1.maxSetVersion,
        (handleRSCore ⟨ty₁, sn₁, msv, meid,
          replaceServer l s⟩ s).1.maxElectionId,
        replaceServer
          (handleRSCore ⟨ty₁, sn₁, msv, meid, replaceServer l s⟩ s).1.servers
          s⟩ s).1 =
      ⟨(handleRSCore ⟨ty₁, sn₁, msv, meid,
          replaceServer l s⟩ s).1.topologyType,
       sn₂,
       (handleRSCore ⟨ty₁, sn₁, msv, meid,
         replaceServer l s⟩ s).1.maxSetVersion,
       (handleRSCore ⟨ty₁, sn₁, msv, meid,
         replaceServer l s⟩ s).1.maxElectionId,
       (handleRSCore ⟨ty₁, sn₁, msv, meid,
         replaceServer l s⟩ s).1.servers⟩ := by
  by_cases hty : s.serverType = .RSPrimary
  · rw [handleRSCore_primary_eq ⟨ty₁, sn₁, msv, meid, replaceServer l s⟩ s
      hty] 
    by_cases hstale : isStalePrimary ⟨ty₁, sn₁, msv, meid,
        replaceServer l s⟩ s = true
    · rw [if_pos hstale] 
      dsimp only 
      have e1 : replaceServer (replaceServer l s) (markUnknown s.address) =
          replaceServer l (markUnknown s.address) :=
        replaceServer_replaceServer l rfl
      rw [e1]
      have e2 : replaceServer (replaceServer l (markUnknown s.address)) s =
          replaceServer l s := replaceServer_replaceServer l rfl
      rw [e2]
      rw [handleRSCore_primary_eq ⟨ty₂, sn₂, msv, meid, replaceServer l s⟩ s
        hty]
      rw [show isStalePrimary ⟨ty₂, sn₂, msv, meid, replaceServer l s⟩ s =
          isStalePrimary ⟨ty₁, sn₁, msv, meid, replaceServer l s⟩ s from rfl,
        if_pos hstale]
      dsimp only
      rw [e1]
    · rw [if_neg hstale] 
      dsimp only 
      have hB1 : ∀ e ∈ (reconcileMembership
          (demoteOthers (replaceServer l s) s.address) (advertised s)).1,
          e.address = s.address → e = s := by
        intro e he ha
        rcases mem_reconcileMembership he with ⟨hel, _⟩ | ⟨b, _, hbk, rfl⟩
        · exact mem_replaceServer_addr (mem_demoteOthers_addr hel ha) ha
        · rw [keys_demoteOthers, keys_replaceServer] at hbk
          rw [markUnknown_address] at ha
          exact absurd hmem (ha ▸ hbk)
      have hB2 : ∀ e ∈ (reconcileMembership
          (demoteOthers (replaceServer l s) s.address) (advertised s)).1,
          e.address ≠ s.address → e.serverType ≠ .RSPrimary := by
        intro e he hne hp
        rcases mem_reconcileMembership he with ⟨hel, _⟩ | ⟨b, _, _, rfl⟩
        · exact hne (mem_demoteOthers_primary hel hp)
        · simp [markUnknown] at hp
      rw [replaceServer_self hB1]
      rw [handleRSCore_primary_eq ⟨ty₂, sn₂, updatedMax msv s.setVersion,
        updatedMax meid s.electionId, (reconcileMembership
          (demoteOthers (replaceServer l s) s.address) (advertised s)).1⟩ s
        hty]
      rw [if_neg (by rw [isStalePrimary_updatedMax]; simp)]
      dsimp only
      rw [demoteOthers_self hB2]
      rw [reconcileMembership_self
        (fun e he => addr_mem_reconcileMembership he)
        (fun b hb => adv_subset_keys_reconcileMembership hb)]
      rw [updatedMax_idem, updatedMax_idem]
  · rw [handleRSCore_other_eq ⟨ty₁, sn₁, msv, meid, replaceServer l s⟩ s
      hty] 
    by_cases hp : hasPrimary (replaceServer l s) = true
    · rw [if_pos hp] 
      dsimp only 
      have e1 : replaceServer (replaceServer l s) s = replaceServer l s :=
        replaceServer_replaceServer l rfl
      rw [e1]
      rw [handleRSCore_other_eq ⟨ty₂, sn₂, msv, meid,
        replaceServer l s⟩ s hty]
      rw [if_pos hp]
    · have hp' : hasPrimary (replaceServer l s) = false := by
        revert hp
        cases hasPrimary (replaceServer l s) <;> simp
      rw [if_neg hp] 
      dsimp only 
      have e1 : replaceServer (replaceServer l s ++
          (((advertised s).filter fun b =>
            b ∉ keys (replaceServer l s)).dedup).map markUnknown) s =
          replaceServer l s ++
            (((advertised s).filter fun b =>
              b ∉ keys (replaceServer l s)).dedup).map markUnknown := by
        refine replaceServer_self ?_
        intro e he ha
        rcases List.mem_append.mp he with h | h
        · exact mem_replaceServer_addr h ha
        · obtain ⟨b, hb, rfl⟩ := List.mem_map.mp h
          have := (List.mem_filter.mp (List.mem_dedup.mp hb)).2
          rw [keys_replaceServer] at this
          simp only [decide_eq_true_eq] at this
          rw [markUnknown_address] at ha
          exact absurd hmem (ha ▸ this)
      rw [e1]
      rw [handleRSCore_other_eq ⟨ty₂, sn₂, msv, meid, replaceServer l s ++
        (((advertised s).filter fun b =>
          b ∉ keys (replaceServer l s)).dedup).map markUnknown⟩ s hty]
      have hpL : hasPrimary (replaceServer l s ++
          (((advertised s).filter fun b =>
            b ∉ keys (replaceServer l s)).dedup).map markUnknown) = false := by
        rw [hasPrimary_append, hp', hasPrimary_map_markUnknown]
        rfl
      rw [if_neg (by rw [hpL]; simp)]
      dsimp only
      have hfresh : ((advertised s).filter fun b =>
          b ∉ keys (replaceServer l s ++
            (((advertised s).filter fun b =>
              b ∉ keys (replaceServer l s)).dedup).map markUnknown)) =
          [] := by
        rw [List.filter_eq_nil_iff]
        intro b hb
        simp only [decide_eq_true_eq, Decidable.not_not]
        rw [keys_append, keys_replaceServer, keys_map_markUnknown]
        by_cases hbl : b ∈ keys l
        · exact List.mem_append.mpr (Or.inl hbl)
        · refine List.mem_append.mpr (Or.inr ?_)
          refine List.mem_dedup.mpr (List.mem_filter.mpr ⟨hb, ?_⟩)
          simpa using hbl
      rw [hfresh]
      simp only [List.dedup_nil, List.map_nil, List.append_nil]


theorem handleRSCore_setName (t : TopologyDescription)
    (s : ServerDescription) : (handleRSCore t s).1.setName = t.setName := by
  by_cases hty : s.serverType = .RSPrimary
  · rw [handleRSCore_primary_eq t s hty]
    split <;> rfl
  · rw [handleRSCore_other_eq t s hty]
    split <;> rfl

theorem handleRSCore_topologyType (t : TopologyDescription)
    (s : ServerDescription) :
    (handleRSCore t s).1.topologyType = .ReplicaSetNoPrimary ∨
      (handleRSCore t s).1.topologyType = .ReplicaSetWithPrimary := by
  by_cases hty : s.serverType = .RSPrimary
  · rw [handleRSCore_primary_eq t s hty]
    split <;> exact recomputeRSType_cases _
  · rw [handleRSCore_other_eq t s hty]
    split <;> exact recomputeRSType_cases _

theorem topo_eta (t : TopologyDescription) (tyv : TopologyType)
    (snv : Option String) (h1 : t.topologyType = tyv) (h2 : t.setName = snv) :
    (⟨tyv, snv, t.maxSetVersion, t.maxElectionId,
      t.servers⟩ : TopologyDescription) = t := by
  obtain ⟨a, b, c, d, e⟩ := t
  simp only at h1 h2
  rw [h1, h2]

theorem reconcile_sharded_ok_eq (sn : Option String) (msv meid : Option Nat)
    (l : List ServerDescription) (s : ServerDescription)
    (hmem : s.address ∈ keys l)
    (h : s.serverType = .Unknown ∨ s.serverType = .Mongos) :
    reconcile ⟨.Sharded, sn, msv, meid, l⟩ s =
      (⟨.Sharded, sn, msv, meid, replaceServer l s⟩, []) := by
  obtain ⟨a, sty, rtt, ssn, ssv, seid, hs, ps, ar, tg⟩ := s
  simp only at hmem
  rcases h with h | h <;> simp only at h <;> subst h <;>
    (unfold reconcile; rw [if_pos hmem])

theorem reconcile_sharded_bad_eq (sn : Option String) (msv meid : Option Nat)
    (l : List ServerDescription) (s : ServerDescription)
    (hmem : s.address ∈ keys l)
    (h : ¬(s.serverType = .Unknown ∨ s.serverType = .Mongos)) :
    reconcile ⟨.Sharded, sn, msv, meid, l⟩ s =
      (⟨.Sharded, sn, msv, meid,
        replaceServer (replaceServer l s) (markUnknown s.address)⟩, []) := by
  obtain ⟨a, sty, rtt, ssn, ssv, seid, hs, ps, ar, tg⟩ := s
  simp only at hmem
  cases sty <;>
    first
    | exact absurd (Or.inl rfl) h
    | exact absurd (Or.inr rfl) h
    | (unfold reconcile; rw [if_pos hmem])

theorem reconcile_unknown_standalone_eq (sn : Option String)
    (msv meid : Option Nat) (l : List ServerDescription)
    (s : ServerDescription) (hmem : s.address ∈ keys l)
    (h : s.serverType = .Standalone) :
    reconcile ⟨.Unknown, sn, msv, meid, l⟩ s =
      if l.length = 1 then
        (⟨.Single, sn, msv, meid, replaceServer l s⟩, [])
      else (⟨.Unknown, sn, msv, meid, replaceServer l s⟩, []) := by
  obtain ⟨a, sty, rtt, ssn, ssv, seid, hs, ps, ar, tg⟩ := s
  simp only at hmem h
  subst h
  unfold reconcile
  rw [if_pos hmem]

theorem reconcile_unknown_mongos_eq (sn : Option String)
    (msv meid : Option Nat) (l : List ServerDescription)
    (s : ServerDescription) (hmem : s.address ∈ keys l)
    (h : s.serverType = .Mongos) :
    reconcile ⟨.Unknown, sn, msv, meid, l⟩ s =
      (⟨.Sharded, sn, msv, meid, replaceServer l s⟩, []) := by
  obtain ⟨a, sty, rtt, ssn, ssv, seid, hs, ps, ar, tg⟩ := s
  simp only at hmem h
  subst h
  unfold reconcile
  rw [if_pos hmem]

theorem reconcile_unknown_member_eq (sn : Option String)
    (msv meid : Option Nat) (l : List ServerDescription)
    (s : ServerDescription) (hmem : s.address ∈ keys l)
    (h : s.serverType = .RSPrimary ∨ s.serverType = .RSSecondary ∨
      s.serverType = .RSArbiter ∨ s.serverType = .RSOther) :
    reconcile ⟨.Unknown, sn, msv, meid, l⟩ s =
      handleRS ⟨.Unknown, sn, msv, meid, replaceServer l s⟩ s := by
  obtain ⟨a, sty, rtt, ssn, ssv, seid, hs, ps, ar, tg⟩ := s
  simp only at hmem
  rcases h with h | h | h | h <;> simp only at h <;> subst h <;>
    (unfold reconcile; rw [if_pos hmem])

theorem reconcile_unknown_other_eq (sn : Option String)
    (msv meid : Option Nat) (l : List ServerDescription)
    (s : ServerDescription) (hmem : s.address ∈ keys l)
    (h1 : s.serverType ≠ .Standalone) (h2 : s.serverType ≠ .Mongos)
    (h3 : ¬(s.serverType = .RSPrimary ∨ s.serverType = .RSSecondary ∨
      s.serverType = .RSArbiter ∨ s.serverType = .RSOther)) :
    reconcile ⟨.Unknown, sn, msv, meid, l⟩ s =
      (⟨.Unknown, sn, msv, meid, replaceServer l s⟩, []) := by
  obtain ⟨a, sty, rtt, ssn, ssv, seid, hs, ps, ar, tg⟩ := s
  simp only at hmem
  cases sty <;>
    first
    | exact absurd rfl h1
    | exact absurd rfl h2
    | exact absurd (Or.inl rfl) h3
    | exact absurd (Or.inr (Or.inl rfl)) h3
    | exact absurd (Or.inr (Or.inr (Or.inl rfl))) h3
    | exact absurd (Or.inr (Or.inr (Or.inr rfl))) h3
    | (unfold reconcile; rw [if_pos hmem])

theorem reconcile_rs_eq (ty : TopologyType) (sn : Option String)
    (msv meid : Option Nat) (l : List ServerDescription)
    (s : ServerDescription) (hmem : s.address ∈ keys l)
    (hty : ty = .ReplicaSetNoPrimary ∨ ty = .ReplicaSetWithPrimary) :
    reconcile ⟨ty, sn, msv, meid, l⟩ s =
      handleRS ⟨ty, sn, msv, meid, replaceServer l s⟩ s := by
  rcases hty with h | h <;> subst h <;> (unfold reconcile; rw [if_pos hmem])

theorem handleRS_applyUpdate_idem (ty : TopologyType) (sn : Option String)
    (msv meid : Option Nat) (l : List ServerDescription)
    (s : ServerDescription) (hmem : s.address ∈ keys l)
    (hm : s.serverType = .RSPrimary ∨ s.serverType = .RSSecondary ∨
      s.serverType = .RSArbiter ∨ s.serverType = .RSOther) :
    applyUpdate (handleRS ⟨ty, sn, msv, meid, replaceServer l s⟩ s).1 s =
      (handleRS ⟨ty, sn, msv, meid, replaceServer l s⟩ s).1 := by
  rw [handleRS_member_eq ⟨ty, sn, msv, meid, replaceServer l s⟩ s hm]
  rcases sn with _ | n
  · rcases hsn : s.setName with _ | m
    · dsimp only
      by_cases hret : s.address ∈ keys (handleRSCore
          ⟨ty, none, msv, meid, replaceServer l s⟩ s).1.servers
      · unfold applyUpdate reconcile
        rw [if_pos hret]
        rcases handleRSCore_topologyType
            ⟨ty, none, msv, meid, replaceServer l s⟩ s with h | h <;>
          rw [h] <;>
          dsimp only <;>
          rw [handleRS_member_eq _ s hm] <;>
          rw [handleRSCore_setName ⟨ty, none, msv, meid,
            replaceServer l s⟩ s] <;>
          dsimp only <;>
          rw [hsn] <;>
          rw [handleRSCore_idem ty _ none none msv meid l s hmem] <;>
          exact topo_eta _ _ _ rfl (by rw [handleRSCore_setName])
      · unfold applyUpdate
        rw [reconcile_not_mem hret]
    · dsimp only
      by_cases hret : s.address ∈ keys (handleRSCore
          ⟨ty, some m, msv, meid, replaceServer l s⟩ s).1.servers
      · unfold applyUpdate reconcile
        rw [if_pos hret]
        rcases handleRSCore_topologyType
            ⟨ty, some m, msv, meid, replaceServer l s⟩ s with h | h <;>
          rw [h] <;>
          dsimp only <;>
          rw [handleRS_member_eq _ s hm] <;>
          rw [handleRSCore_setName ⟨ty, some m, msv, meid,
            replaceServer l s⟩ s] <;>
          dsimp only <;>
          rw [hsn] <;>
          dsimp only <;>
          rw [if_pos (rfl : m = m)] <;>
          rw [handleRSCore_idem ty _ (some m) (some m) msv meid l s hmem] <;>
          exact topo_eta _ _ _ rfl (by rw [handleRSCore_setName])
      · unfold applyUpdate
        rw [reconcile_not_mem hret]
  · rcases hsn : s.setName with _ | m
    · dsimp only
      by_cases hret : s.address ∈ keys (handleRSCore
          ⟨ty, some n, msv, meid, replaceServer l s⟩ s).1.servers
      · unfold applyUpdate reconcile
        rw [if_pos hret]
        rcases handleRSCore_topologyType
            ⟨ty, some n, msv, meid, replaceServer l s⟩ s with h | h <;>
          rw [h] <;>
          dsimp only <;>
          rw [handleRS_member_eq _ s hm] <;>
          rw [handleRSCore_setName ⟨ty, some n, msv, meid,
            replaceServer l s⟩ s] <;>
          dsimp only <;>
          rw [hsn] <;>
          dsimp only <;>
          rw [handleRSCore_idem ty _ (some n) (some n) msv meid l s hmem] <;>
          exact topo_eta _ _ _ rfl (by rw [handleRSCore_setName])
      · unfold applyUpdate
        rw [reconcile_not_mem hret]
    · by_cases hnm : n = m
      · subst hnm
        dsimp only
        rw [if_pos (rfl : n = n)]
        by_cases hret : s.address ∈ keys (handleRSCore
            ⟨ty, some n, msv, meid, replaceServer l s⟩ s).1.servers
        · unfold applyUpdate reconcile
          rw [if_pos hret]
          rcases handleRSCore_topologyType
              ⟨ty, some n, msv, meid, replaceServer l s⟩ s with h | h <;>
            rw [h] <;>
            dsimp only <;>
            rw [handleRS_member_eq _ s hm] <;>
            rw [handleRSCore_setName ⟨ty, some n, msv, meid,
              replaceServer l s⟩ s] <;>
            dsimp only <;>
            rw [hsn] <;>
            dsimp only <;>
            rw [if_pos (rfl : n = n)] <;>
            rw [handleRSCore_idem ty _ (some n) (some n) msv meid l s
              hmem] <;>
            exact topo_eta _ _ _ rfl (by rw [handleRSCore_setName])
        · unfold applyUpdate
          rw [reconcile_not_mem hret]
      · dsimp only
        rw [if_neg hnm]
        dsimp only
        have hnot : s.address ∉ keys
            (removeServer (replaceServer l s) s.address) :=
          not_mem_keys_removeServer _ _
        unfold applyUpdate
        rw [reconcile_not_mem hnot]

/-- C3: the reconciliation step is idempotent — applying the same
ServerDescription update twice in immediate succession yields the same
TopologyDescription as applying it once. -/
theorem applyUpdate_idempotent (t : TopologyDescription)
    (s : ServerDescription) :
    applyUpdate (applyUpdate t s) s = applyUpdate t s := by
  by_cases hmem : s.address ∈ keys t.servers
  · obtain ⟨ty, sn, msv, meid, l⟩ := t
    simp only at hmem
    have hmem2 : ∀ s' : ServerDescription,
        s.address ∈ keys (replaceServer l s') := by
      intro s'
      rw [keys_replaceServer]
      exact hmem
    cases ty with
    | Single =>
        have h1 : applyUpdate ⟨.Single, sn, msv, meid, l⟩ s =
            ⟨.Single, sn, msv, meid, replaceServer l s⟩ := by
          unfold applyUpdate reconcile
          rw [if_pos hmem]
        rw [h1]
        unfold applyUpdate reconcile
        rw [if_pos (hmem2 s)]
        dsimp only
        rw [replaceServer_replaceServer l rfl]
    | LoadBalanced =>
        have h1 : applyUpdate ⟨.LoadBalanced, sn, msv, meid, l⟩ s =
            ⟨.LoadBalanced, sn, msv, meid, replaceServer l s⟩ := by
          unfold applyUpdate reconcile
          rw [if_pos hmem]
        rw [h1]
        unfold applyUpdate reconcile
        rw [if_pos (hmem2 s)]
        dsimp only
        rw [replaceServer_replaceServer l rfl]
    | ReplicaSetNoPrimary =>
        by_cases hm : s.serverType = .RSPrimary ∨
          s.serverType = .RSSecondary ∨ s.serverType = .RSArbiter ∨
          s.serverType = .RSOther
        · have h1 : applyUpdate ⟨.ReplicaSetNoPrimary, sn, msv, meid, l⟩ s =
              (handleRS ⟨.ReplicaSetNoPrimary, sn, msv, meid,
                replaceServer l s⟩ s).1 := by
            unfold applyUpdate
            rw [reconcile_rs_eq _ sn msv meid l s hmem (Or.inl rfl)]
          rw [h1]
          exact handleRS_applyUpdate_idem .ReplicaSetNoPrimary sn msv meid l s
            hmem hm
        · have h1 : applyUpdate ⟨.ReplicaSetNoPrimary, sn, msv, meid, l⟩ s =
              ⟨recomputeRSType (replaceServer l s), sn, msv, meid,
                replaceServer l s⟩ := by
            unfold applyUpdate
            rw [reconcile_rs_eq _ sn msv meid l s hmem (Or.inl rfl)]
            rw [handleRS_other_eq _ s hm]
          rw [h1]
          unfold applyUpdate
          rcases recomputeRSType_cases (replaceServer l s) with h | h <;>
            rw [h] <;>
            rw [reconcile_rs_eq _ sn msv meid (replaceServer l s) s (hmem2 s)
              (by simp)] <;>
            rw [handleRS_other_eq _ s hm] <;>
            rw [replaceServer_replaceServer l rfl] <;>
            rw [h]
    | ReplicaSetWithPrimary =>
        by_cases hm : s.serverType = .RSPrimary ∨
          s.serverType = .RSSecondary ∨ s.serverType = .RSArbiter ∨
          s.serverType = .RSOther
        · have h1 : applyUpdate ⟨.ReplicaSetWithPrimary, sn, msv, meid, l⟩
              s = (handleRS ⟨.ReplicaSetWithPrimary, sn, msv, meid,
                replaceServer l s⟩ s).1 := by
            unfold applyUpdate
            rw [reconcile_rs_eq _ sn msv meid l s hmem (Or.inr rfl)]
          rw [h1]
          exact handleRS_applyUpdate_idem .ReplicaSetWithPrimary sn msv meid l
            s hmem hm
        · have h1 : applyUpdate ⟨.ReplicaSetWithPrimary, sn, msv, meid, l⟩
              s = ⟨recomputeRSType (replaceServer l s), sn, msv, meid,
                replaceServer l s⟩ := by
            unfold applyUpdate
            rw [reconcile_rs_eq _ sn msv meid l s hmem (Or.inr rfl)]
            rw [handleRS_other_eq _ s hm]
          rw [h1]
          unfold applyUpdate
          rcases recomputeRSType_cases (replaceServer l s) with h | h <;>
            rw [h] <;>
            rw [reconcile_rs_eq _ sn msv meid (replaceServer l s) s (hmem2 s)
              (by simp)] <;>
            rw [handleRS_other_eq _ s hm] <;>
            rw [replaceServer_replaceServer l rfl] <;>
            rw [h]
    | Sharded =>
        by_cases hok : s.serverType = .Unknown ∨ s.serverType = .Mongos
        · have h1 : applyUpdate ⟨.Sharded, sn, msv, meid, l⟩ s =
              ⟨.Sharded, sn, msv, meid, replaceServer l s⟩ := by
            unfold applyUpdate
            rw [reconcile_sharded_ok_eq sn msv meid l s hmem hok]
          rw [h1]
          unfold applyUpdate
          rw [reconcile_sharded_ok_eq sn msv meid (replaceServer l s) s
            (hmem2 s) hok]
          rw [replaceServer_replaceServer l rfl]
        · have h1 : applyUpdate ⟨.Sharded, sn, msv, meid, l⟩ s =
              ⟨.Sharded, sn, msv, meid,
                replaceServer l (markUnknown s.address)⟩ := by
            unfold applyUpdate
            rw [reconcile_sharded_bad_eq sn msv meid l s hmem hok]
            dsimp only
            rw [show replaceServer (replaceServer l s)
                (markUnknown s.address) =
                replaceServer l (markUnknown s.address) from
              replaceServer_replaceServer l rfl]
          rw [h1]
          unfold applyUpdate
          rw [reconcile_sharded_bad_eq sn msv meid
            (replaceServer l (markUnknown s.address)) s
            (hmem2 (markUnknown s.address)) hok]
          dsimp only
          rw [show replaceServer
              (replaceServer l (markUnknown s.address)) s =
              replaceServer l s from replaceServer_replaceServer l rfl]
          rw [show replaceServer (replaceServer l s)
              (markUnknown s.address) =
              replaceServer l (markUnknown s.address) from
            replaceServer_replaceServer l rfl]
    | Unknown =>
        by_cases hst : s.serverType = .Standalone
        · by_cases hlen : l.length = 1
          · have h1 : applyUpdate ⟨.Unknown, sn, msv, meid, l⟩ s =
                ⟨.Single, sn, msv, meid, replaceServer l s⟩ := by
              unfold applyUpdate
              rw [reconcile_unknown_standalone_eq sn msv meid l s hmem hst]
              rw [if_pos hlen]
            rw [h1]
            unfold applyUpdate reconcile
            rw [if_pos (hmem2 s)]
            dsimp only
            rw [replaceServer_replaceServer l rfl]
          · have h1 : applyUpdate ⟨.Unknown, sn, msv, meid, l⟩ s =
                ⟨.Unknown, sn, msv, meid, replaceServer l s⟩ := by
              unfold applyUpdate
              rw [reconcile_unknown_standalone_eq sn msv meid l s hmem hst]
              rw [if_neg hlen]
            rw [h1]
            unfold applyUpdate
            rw [reconcile_unknown_standalone_eq sn msv meid
              (replaceServer l s) s (hmem2 s) hst]
            rw [length_replaceServer, if_neg hlen]
            rw [replaceServer_replaceServer l rfl]
        · by_cases hmg : s.serverType = .Mongos
          · have h1 : applyUpdate ⟨.Unknown, sn, msv, meid, l⟩ s =
                ⟨.Sharded, sn, msv, meid, replaceServer l s⟩ := by
              unfold applyUpdate
              rw [reconcile_unknown_mongos_eq sn msv meid l s hmem hmg]
            rw [h1]
            unfold applyUpdate
            rw [reconcile_sharded_ok_eq sn msv meid (replaceServer l s) s
              (hmem2 s) (Or.inr hmg)]
            rw [replaceServer_replaceServer l rfl]
          · by_cases hm : s.serverType = .RSPrimary ∨
              s.serverType = .RSSecondary ∨ s.serverType = .RSArbiter ∨
              s.serverType = .RSOther
            · have h1 : applyUpdate ⟨.Unknown, sn, msv, meid, l⟩ s =
                  (handleRS ⟨.Unknown, sn, msv, meid,
                    replaceServer l s⟩ s).1 := by
                unfold applyUpdate
                rw [reconcile_unknown_member_eq sn msv meid l s hmem hm]
              rw [h1]
              exact handleRS_applyUpdate_idem .Unknown sn msv meid l s hmem hm
            · have h1 : applyUpdate ⟨.Unknown, sn, msv, meid, l⟩ s =
                  ⟨.Unknown, sn, msv, meid, replaceServer l s⟩ := by
                unfold applyUpdate
                rw [reconcile_unknown_other_eq sn msv meid l s hmem hst hmg
                  hm]
              rw [h1]
              unfold applyUpdate
              rw [reconcile_unknown_other_eq sn msv meid (replaceServer l s) s
                (hmem2 s) hst hmg hm]
              rw [replaceServer_replaceServer l rfl]
  · have h1 : applyUpdate t s = t := by
      unfold applyUpdate
      rw [reconcile_not_mem hmem]
    rw [h1, h1]

end SDAM
